import Mathlib

/-!
# Gesture.hpp — the $1 recognizer gesture class

A shallow embedding of `src/Gesture.hpp`.

`double` arithmetic, the `<cmath>` functions and the text form of a `double`
on a stream are not part of the repository.  They enter the embedding as one
parameter, `DoubleOps F`: every function of the header is translated over an
arbitrary carrier `F`, and a theorem stated for every `ops : DoubleOps F`
holds whatever the platform computes (rounding, NaN, infinities included).
`ratOps` is one concrete platform, exact rational arithmetic, used to
evaluate the code on explicit inputs.

Vectors are lists, loop counters are natural numbers (paths are assumed
shorter than `2^31` points, the range of the `int` counters), and the one
place where unsigned arithmetic wraps, `path.size()-1`, is modelled with an
explicit `% 2^64`.
-/

namespace GestureHpp

/-! ## Platform parameter -/

/-- The operations on `double` that `Gesture.hpp` takes from the language and
its standard library. -/
structure DoubleOps (F : Type) where
  /-- Conversion of an integer or of a decimal literal to `double`. -/
  ofRat : ℚ → F
  /-- Binary `+`. -/
  add : F → F → F
  /-- Binary `-`. -/
  sub : F → F → F
  /-- Binary `*`. -/
  mul : F → F → F
  /-- Binary `/`. -/
  div : F → F → F
  /-- The function `pow` of `<cmath>`. -/
  pow : F → F → F
  /-- The function `sqrt` of `<cmath>`. -/
  sqrt : F → F
  /-- The function `cos` of `<cmath>`. -/
  cos : F → F
  /-- The function `sin` of `<cmath>`. -/
  sin : F → F
  /-- The function `atan2` of `<cmath>`. -/
  atan2 : F → F → F
  /-- The comparison `>=`. -/
  ge : F → F → Bool
  /-- The comparison `<`. -/
  lt : F → F → Bool
  /-- The constant `std::numeric_limits<double>::epsilon()`. -/
  epsilon : F
  /-- The constant `(double)FLT_MAX`. -/
  fltMax : F
  /-- The constant `(double)FLT_MIN`. -/
  fltMin : F
  /-- The constant `M_PI`. -/
  pi : F
  /-- The characters `os << v` writes for a `double`. -/
  fmt : F → List Char
  /-- The number parser behind `is >> v`, applied after leading whitespace
  has been skipped: the value read and the characters left, or `none` when
  the text does not start with a number. -/
  scan : List Char → Option (F × List Char)

/-! ## Data model -/

/-- The struct `Point2D`. -/
structure Point2D (F : Type) where
  /-- Field `x`. -/
  x : F
  /-- Field `y`. -/
  y : F
deriving DecidableEq

variable {F : Type}

/-- The method `Point2D::distance`: the square root of the sum of squares, or
`epsilon` when that sum is below `epsilon`. -/
def Point2D.distance (ops : DoubleOps F) (self pt : Point2D F) : F :=
  let dx := ops.pow (ops.sub self.x pt.x) (ops.ofRat 2)
  let dy := ops.pow (ops.sub self.y pt.y) (ops.ofRat 2)
  let s := ops.add dx dy
  if ops.lt s ops.epsilon then ops.epsilon else ops.sqrt s

/-- The operator `Point2D::operator-`. -/
def Point2D.sub (ops : DoubleOps F) (self rOther : Point2D F) : Point2D F :=
  { x := ops.sub self.x rOther.x, y := ops.sub self.y rOther.y }

/-- The struct `Rect`. -/
structure Rect (F : Type) where
  /-- Field `x`. -/
  x : F
  /-- Field `y`. -/
  y : F
  /-- Field `w`. -/
  w : F
  /-- Field `h`. -/
  h : F
deriving DecidableEq

/-- The data members of class `Gesture`. -/
structure Gesture (F : Type) where
  /-- Member `current_points`. -/
  current_points : List (Point2D F)
  /-- Member `name`. -/
  name : String
  /-- Member `golden_ratio`. -/
  golden_ratio : F
  /-- Member `angle_precision`. -/
  angle_precision : F
deriving DecidableEq

/-- The constructor `Gesture(std::string _name)`. -/
def Gesture.new (ops : DoubleOps F) (_name : String) : Gesture F :=
  { current_points := []
    name := _name
    golden_ratio :=
      ops.mul (ops.ofRat (1 / 2)) (ops.add (ops.ofRat (-1)) (ops.sqrt (ops.ofRat 5)))
    angle_precision := ops.ofRat 1 }

/-- The constructor called without an argument: the name defaults to
`"dummy"`. -/
def Gesture.fresh (ops : DoubleOps F) : Gesture F := Gesture.new ops "dummy"

/-- Method `getPointVector`. -/
def Gesture.getPointVector (g : Gesture F) : List (Point2D F) := g.current_points

/-- Method `getName`. -/
def Gesture.getName (g : Gesture F) : String := g.name

/-- Method `addPoint`. -/
def Gesture.addPoint (g : Gesture F) (_pt : Point2D F) : Gesture F :=
  { g with current_points := g.current_points ++ [_pt] }

/-- Method `setName`. -/
def Gesture.setName (g : Gesture F) (_name : String) : Gesture F :=
  { g with name := _name }

/-- Method `clear`. -/
def Gesture.clear (g : Gesture F) : Gesture F :=
  { g with current_points := [], name := "dummy" }

/-! ## Path operations -/

/-- The expression `sqrt(pow(x1-x0, 2) + pow(y1-y0, 2))` shared by
`pathLength` and `resample`, for `p0 = path[i-1]` and `p1 = path[i]`. -/
def segmentLength (ops : DoubleOps F) (p0 p1 : Point2D F) : F :=
  ops.sqrt (ops.add (ops.pow (ops.sub p1.x p0.x) (ops.ofRat 2))
                    (ops.pow (ops.sub p1.y p0.y) (ops.ofRat 2)))

/-- The loop of `pathLength`: `prev` is `path[i-1]`, the list holds
`path[i], path[i+1], ...`, and `dist` is the running sum. -/
def pathLengthLoop (ops : DoubleOps F) : Point2D F → List (Point2D F) → F → F
  | _, [], dist => dist
  | prev, cur :: rest, dist =>
      pathLengthLoop ops cur rest (ops.add dist (segmentLength ops prev cur))

/-- `Gesture::pathLength`. -/
def pathLength (ops : DoubleOps F) (path : List (Point2D F)) : F :=
  match path with
  | [] => ops.ofRat 0
  | p0 :: rest => pathLengthLoop ops p0 rest (ops.ofRat 0)

/-- The loop of `resample`: `prev` is `path[i-1]`, the list holds
`path[i], path[i+1], ...`, `D` is the accumulator and `out` is
`resampled_points`. -/
def resampleLoop (ops : DoubleOps F) (I : F) :
    Point2D F → List (Point2D F) → F → List (Point2D F) → List (Point2D F)
  | _, [], _, out => out
  | prev, cur :: rest, D, out =>
      let d := segmentLength ops prev cur
      if ops.ge (ops.add D d) I then
        let qx := ops.add prev.x (ops.mul (ops.div (ops.sub I D) d) (ops.sub prev.x cur.x))
        let qy := ops.add prev.y (ops.mul (ops.div (ops.sub I D) d) (ops.sub prev.y cur.y))
        resampleLoop ops I cur rest (ops.ofRat 0) (out ++ [⟨qx, qy⟩])
      else
        resampleLoop ops I cur rest (ops.add D d) out

/-- `Gesture::resample`.  The result is `none` on an empty path, where the
unguarded read `path[0]` is outside the vector. -/
def resample (ops : DoubleOps F) (path : List (Point2D F)) (n : Int) :
    Option (List (Point2D F)) :=
  match path with
  | [] => none
  | p0 :: rest =>
      let I := ops.div (pathLength ops path) (ops.ofRat (n - 1 : Int))
      some (resampleLoop ops I p0 rest (ops.ofRat 0) [p0])

/-- The loop of `centroid`: the running sums `x` and `y`. -/
def centroidLoop (ops : DoubleOps F) : List (Point2D F) → F → F → F × F
  | [], x, y => (x, y)
  | p :: rest, x, y => centroidLoop ops rest (ops.add x p.x) (ops.add y p.y)

/-- `Gesture::centroid`.  No branch guards the division by
`(double)path.size()`. -/
def centroid (ops : DoubleOps F) (path : List (Point2D F)) : Point2D F :=
  let s := centroidLoop ops path (ops.ofRat 0) (ops.ofRat 0)
  ⟨ops.div s.1 (ops.ofRat (path.length : Nat)), ops.div s.2 (ops.ofRat (path.length : Nat))⟩

/-- The value of `path.size()-1` in the 64-bit unsigned type `size_t`. -/
def sizeMinusOne (size : Nat) : Nat := (size + 2 ^ 64 - 1) % 2 ^ 64

/-- The loop `for(int i=0; i<path.size()-1; i++){ q = body(path[i]); }` that
`rotateBy`, `translateToOrigin` and `scaleToSquare` share: `count` is the
number of iterations still to run, `i` the counter and `q` the local point.
The loop only reads the path and overwrites the local `q`.  The result is
`none` when `path[i]` is read outside the vector. -/
def readLoop (body : Point2D F → Point2D F) (path : List (Point2D F)) :
    Nat → Nat → Point2D F → Option (Point2D F)
  | 0, _, q => some q
  | count + 1, i, _ =>
      match path.get? i with
      | none => none
      | some p => readLoop body path count (i + 1) (body p)

/-- The body of the loop of `rotateBy`: the value assigned to `q`. -/
def rotateByBody (ops : DoubleOps F) (C : Point2D F) (theta : F) (p : Point2D F) :
    Point2D F :=
  { x := ops.add (ops.sub (ops.mul (ops.sub p.x C.x) (ops.cos theta))
                          (ops.mul (ops.sub p.y C.y) (ops.sin theta))) C.x
    y := ops.add (ops.sub (ops.mul (ops.sub p.x C.x) (ops.cos theta))
                          (ops.mul (ops.sub p.y C.y) (ops.sin theta))) C.y }

/-- `Gesture::rotateBy`: the path after the call.  The statement that would
store `q` into the path is a comment in the source, so the path comes back as
it was passed; `none` when the loop reads outside the vector. -/
def rotateBy (ops : DoubleOps F) (path : List (Point2D F)) (C : Point2D F) (theta : F) :
    Option (List (Point2D F)) :=
  (readLoop (rotateByBody ops C theta) path (sizeMinusOne path.length) 0
    ⟨ops.ofRat 0, ops.ofRat 0⟩).map (fun _ => path)

/-- `Gesture::rotateToZero`: the path after the call; `none` when `path[0]`
or the loop of `rotateBy` reads outside the vector. -/
def rotateToZero (ops : DoubleOps F) (path : List (Point2D F)) : Option (List (Point2D F)) :=
  let c := centroid ops path
  match path.get? 0 with
  | none => none
  | some p0 =>
      let theta :=
        ops.div (ops.mul (ops.atan2 (ops.sub c.y p0.y) (ops.sub c.x p0.x)) (ops.ofRat 180))
          ops.pi
      rotateBy ops path c theta

/-- The body of the loop of `translateToOrigin`: the value assigned to `q`. -/
def translateToOriginBody (ops : DoubleOps F) (c : Point2D F) (p : Point2D F) : Point2D F :=
  { x := ops.sub p.x c.x, y := ops.sub p.y c.y }

/-- `Gesture::translateToOrigin`: the path after the call; `none` when the
loop reads outside the vector. -/
def translateToOrigin (ops : DoubleOps F) (path : List (Point2D F)) :
    Option (List (Point2D F)) :=
  let c := centroid ops path
  (readLoop (translateToOriginBody ops c) path (sizeMinusOne path.length) 0
    ⟨ops.ofRat 0, ops.ofRat 0⟩).map (fun _ => path)

/-- `Gesture::boundingBox`.  Between the four initialisations and the
`return` the source has only the comment `YOUR CODE HERE`: the path is never
scanned. -/
def boundingBox (ops : DoubleOps F) (_path : List (Point2D F)) : Rect F :=
  let min_x := ops.fltMax
  let min_y := ops.fltMax
  let max_x := ops.fltMin
  let max_y := ops.fltMin
  ⟨min_x, min_y, ops.sub max_x min_x, ops.sub max_y min_y⟩

/-- The body of the loop of `scaleToSquare`: the value assigned to `q`. -/
def scaleToSquareBody (ops : DoubleOps F) (B : Rect F) (nSize : F) (p : Point2D F) :
    Point2D F :=
  { x := ops.mul p.x (ops.div nSize B.x), y := ops.mul p.y (ops.div nSize B.y) }

/-- `Gesture::scaleToSquare`: the path after the call; `none` when the loop
reads outside the vector. -/
def scaleToSquare (ops : DoubleOps F) (path : List (Point2D F)) (nSize : F) :
    Option (List (Point2D F)) :=
  let B := boundingBox ops path
  (readLoop (scaleToSquareBody ops B nSize) path (sizeMinusOne path.length) 0
    ⟨ops.ofRat 0, ops.ofRat 0⟩).map (fun _ => path)

/-! ## Gesture operations -/

/-- The error kinds the specification names.  No statement of `Gesture.hpp`
raises, returns or records an error. -/
inductive GestureError where
  | InsufficientPoints
  | EmptyPath
  | LengthMismatch
  | MalformedSerialization
deriving DecidableEq

/-- How a call of `Gesture::centroid` completes.  The function has no
`throw` and no error return: it completes normally with its value. -/
def centroidCall (ops : DoubleOps F) (path : List (Point2D F)) :
    Except GestureError (Point2D F) :=
  Except.ok (centroid ops path)

/-- `Gesture::normaliseGesture`: how the call completes, and the gesture
after it.  The body of the source function holds only the comment
`YOUR CODE HERE`: the call returns normally and writes no member. -/
def normaliseGesture (g : Gesture F) (_numResampled _squareSize : Int) :
    Except GestureError Unit × Gesture F :=
  (Except.ok (), g)

/-- `Gesture::pathDistance`.  The body of the source function is the comment
`YOUR CODE HERE` followed by `return 0.0;`. -/
def pathDistance (ops : DoubleOps F) (_path : List (Point2D F)) (_gesture : Gesture F) : F :=
  ops.ofRat 0

/-- `Gesture::distanceAtAngle`.  The body of the source function is the
comment `YOUR CODE HERE` followed by `return 0.0;`. -/
def distanceAtAngle (ops : DoubleOps F) (_self : Gesture F) (_nAngle : F)
    (_gesture : Gesture F) : F :=
  ops.ofRat 0

/-- `Gesture::distanceAtBestAngle`.  The body of the source function is the
comment `YOUR CODE HERE` followed by `return 0.0;`. -/
def distanceAtBestAngle (ops : DoubleOps F) (_self : Gesture F) (_gest : Gesture F) : F :=
  ops.ofRat 0

/-- The pipeline the specification gives for normalisation,
`scaleToSquare(translateToOrigin(rotateToZero(resample(points, n))), size)`,
composed from the functions of the source. -/
def normalisePipeline (ops : DoubleOps F) (points : List (Point2D F))
    (numResampled squareSize : Int) : Option (List (Point2D F)) :=
  (resample ops points numResampled).bind fun r =>
    (rotateToZero ops r).bind fun z =>
      (translateToOrigin ops z).bind fun t =>
        scaleToSquare ops t (ops.ofRat squareSize)

/-! ## The words of the specification -/

/-- The Euclidean distance from `p` to `q` in the words of the
specification: the square root of the sum of the squared coordinate
differences. -/
def euclideanSpec (ops : DoubleOps F) (p q : Point2D F) : F :=
  ops.sqrt (ops.add (ops.pow (ops.sub q.x p.x) (ops.ofRat 2))
                    (ops.pow (ops.sub q.y p.y) (ops.ofRat 2)))

/-- The point `path[i]`, for the index sums of the specification. -/
def pointAt (ops : DoubleOps F) (path : List (Point2D F)) (i : Nat) : Point2D F :=
  path.getD i ⟨ops.ofRat 0, ops.ofRat 0⟩

/-- The path length in the words of the specification: the sum, over `i`
from `1` to `len - 1` in this order and starting from `0`, of the Euclidean
distance between `path[i-1]` and `path[i]`. -/
def pathLengthSpec (ops : DoubleOps F) (path : List (Point2D F)) : F :=
  (List.range (path.length - 1)).foldl
    (fun acc k => ops.add acc (euclideanSpec ops (pointAt ops path k) (pointAt ops path (k + 1))))
    (ops.ofRat 0)

/-- The arithmetic mean in the words of the specification: the sum of the
values, taken in order from `0`, divided by their number. -/
def meanSpec (ops : DoubleOps F) (vals : List F) : F :=
  ops.div (vals.foldl ops.add (ops.ofRat 0)) (ops.ofRat (vals.length : Nat))

/-! ## Text form on streams -/

/-- The part of a `std::istream` the header observes: the characters not yet
read and the state bits `eofbit` and `failbit`.  The bit `badbit`, which only
a failing device sets, is left out. -/
structure IStream where
  /-- Characters not yet extracted. -/
  buf : List Char
  /-- State bit `eofbit`. -/
  eofbit : Bool
  /-- State bit `failbit`. -/
  failbit : Bool
deriving DecidableEq

/-- Member `good()`: no state bit is set. -/
def IStream.good (s : IStream) : Bool := !s.eofbit && !s.failbit

/-- A stream over a text, as a fresh `std::istringstream` holds it. -/
def IStream.ofChars (text : List Char) : IStream :=
  { buf := text, eofbit := false, failbit := false }

/-- The function `isspace` in the classic locale. -/
def isSpace (c : Char) : Bool :=
  c == ' ' || c == '\t' || c == '\n' || c == '\x0b' || c == '\x0c' || c == '\r'

/-- The sentry of a formatted input function: a stream that is not `good()`
gets `failbit`; otherwise leading whitespace is skipped, and reaching the end
while skipping sets `eofbit` and `failbit`. -/
def sentrySkipws (s : IStream) : IStream :=
  if s.good then
    match s.buf.dropWhile isSpace with
    | [] => { buf := [], eofbit := true, failbit := true }
    | c :: rest => { s with buf := c :: rest }
  else { s with failbit := true }

/-- The extraction `is >> str` for a `std::string`: when the sentry succeeds
the string is erased and receives the characters up to the next whitespace or
the end of the stream; reaching the end sets `eofbit`, extracting no character
sets `failbit`. -/
def readString (s : IStream) (str : String) : IStream × String :=
  let s1 := sentrySkipws s
  if s1.failbit then (s1, str)
  else
    let tok := s1.buf.takeWhile (fun c => !isSpace c)
    let rest := s1.buf.dropWhile (fun c => !isSpace c)
    ({ buf := rest, eofbit := rest.isEmpty, failbit := tok.isEmpty }, String.mk tok)

/-- The extraction `is >> v` for a `double`: the new stream and the value
stored, `none` when the extraction fails.  Parsing up to the end of the stream
sets `eofbit`. -/
def readDouble (ops : DoubleOps F) (s : IStream) : IStream × Option F :=
  let s1 := sentrySkipws s
  if s1.failbit then (s1, none)
  else
    match ops.scan s1.buf with
    | none => ({ s1 with failbit := true }, none)
    | some (v, rest) => ({ buf := rest, eofbit := rest.isEmpty, failbit := false }, some v)

/-- The call `is.ignore(1)`: a stream that is not `good()` gets `failbit`;
otherwise one character is discarded, or `eofbit` is set when none is left. -/
def ignoreOne (s : IStream) : IStream :=
  if s.good then
    match s.buf with
    | [] => { s with eofbit := true }
    | _ :: rest => { s with buf := rest }
  else { s with failbit := true }

/-- The loop `while(is) { is >> x; is.ignore(1); is >> y; is.ignore(1);
if(is) push_back(Point2D(x,y)); }` of `operator>>`.  The conditions
`while(is)` and `if(is)` test that `failbit` is clear.  The first argument
bounds the number of iterations; `none` when the bound is reached. -/
def readPoints (ops : DoubleOps F) :
    Nat → IStream → List (Point2D F) → Option (IStream × List (Point2D F))
  | 0, _, _ => none
  | fuel + 1, s, points =>
      if s.failbit then some (s, points)
      else
        let rx := readDouble ops s
        let s2 := ignoreOne rx.1
        let ry := readDouble ops s2
        let s4 := ignoreOne ry.1
        match rx.2, ry.2 with
        | some x, some y =>
            if s4.failbit then readPoints ops fuel s4 points
            else readPoints ops fuel s4 (points ++ [⟨x, y⟩])
        | _, _ => readPoints ops fuel s4 points

/-- The friend `operator>>(std::istream&, Gesture&)`: the stream and the
gesture after the call.  Every iteration that stores a point discards two
characters, so the bound passed to `readPoints` is reached only by a number
parser that hands back more text than it received. -/
def readGesture (ops : DoubleOps F) (is : IStream) (rGesture : Gesture F) :
    Option (IStream × Gesture F) :=
  let r := readString is rGesture.name
  (readPoints ops (r.1.buf.length + 2) r.1 rGesture.current_points).map fun sp =>
    (sp.1, { rGesture with name := r.2, current_points := sp.2 })

/-- The characters of `name.c_str()`: the name up to its first NUL. -/
def cStr (name : String) : List Char := name.data.takeWhile (fun c => c != '\x00')

/-- The loop of `operator<<`: each point as `x;y;`. -/
def writePoints (ops : DoubleOps F) : List (Point2D F) → List Char → List Char
  | [], os => os
  | p :: rest, os => writePoints ops rest (os ++ ops.fmt p.x ++ [';'] ++ ops.fmt p.y ++ [';'])

/-- The friend `operator<<(std::ostream&, const Gesture&)`: the text of the
stream after the call, `os` being the text before it. -/
def writeGesture (ops : DoubleOps F) (os : List Char) (rGesture : Gesture F) : List Char :=
  writePoints ops rGesture.current_points (os ++ cStr rGesture.name ++ [' '])

/-- The text `operator<<` writes for a sequence of points: `x;y;` for each
point, nothing in between. -/
def pointsText (ops : DoubleOps F) : List (Point2D F) → List Char
  | [] => []
  | p :: rest => ops.fmt p.x ++ ';' :: (ops.fmt p.y ++ ';' :: pointsText ops rest)

/-- A value survives the text form: reading what `os << v` wrote, up to the
separator `;`, gives `v` back and stops in front of the separator. -/
def RoundTrips (ops : DoubleOps F) (v : F) : Prop :=
  ∀ rest : List Char,
    ops.scan ((ops.fmt v ++ ';' :: rest).dropWhile isSpace) = some (v, ';' :: rest)

/-! ## A concrete platform: exact rational arithmetic

`ratOps` computes over `ℚ`.  Sums, differences, products, comparisons and
quotients by a non-zero divisor are exact, so they agree with IEEE `double`
whenever the operands and the result are representable (small integers and
dyadic fractions); a quotient by zero is `0`, where IEEE gives an infinity or
a NaN.  `sqrt` is exact on squares of rationals, `pow` on whole exponents,
and the text form follows `printf("%g")` with the default stream precision 6.
`cos`, `sin` and `atan2` are truncated series; the header never stores a
value computed from them.
-/

/-- Square root: exact on the square of a rational, rounded down on numerator
and denominator otherwise. -/
def ratSqrt (q : ℚ) : ℚ := (Nat.sqrt q.num.toNat : ℚ) / (Nat.sqrt q.den : ℚ)

/-- Power with a whole exponent (the header only calls `pow(v, 2)`); the
exponent is rounded down. -/
def ratPow (x y : ℚ) : ℚ :=
  if 0 ≤ y then x ^ y.floor.toNat else (x ^ (-y.floor).toNat)⁻¹

/-- Cosine, as its series up to the term of degree 12. -/
def ratCos (t : ℚ) : ℚ :=
  1 - t ^ 2 / 2 + t ^ 4 / 24 - t ^ 6 / 720 + t ^ 8 / 40320 - t ^ 10 / 3628800
    + t ^ 12 / 479001600

/-- Sine, as its series up to the term of degree 13. -/
def ratSin (t : ℚ) : ℚ :=
  t - t ^ 3 / 6 + t ^ 5 / 120 - t ^ 7 / 5040 + t ^ 9 / 362880 - t ^ 11 / 39916800
    + t ^ 13 / 6227020800

/-- The literal `M_PI`, `3.14159265358979323846`. -/
def ratPi : ℚ := 314159265358979323846 / 100000000000000000000

/-- Arc tangent on `[-1, 1]`, as its series up to the term of degree 9. -/
def ratAtanSmall (z : ℚ) : ℚ := z - z ^ 3 / 3 + z ^ 5 / 5 - z ^ 7 / 7 + z ^ 9 / 9

/-- Arc tangent, reduced to `[-1, 1]` by `atan z = ±π/2 - atan (1/z)`. -/
def ratAtan (z : ℚ) : ℚ :=
  if 1 < z then ratPi / 2 - ratAtanSmall (1 / z)
  else if z < -1 then -(ratPi / 2) - ratAtanSmall (1 / z)
  else ratAtanSmall z

/-- The two-argument arc tangent, by quadrant. -/
def ratAtan2 (y x : ℚ) : ℚ :=
  if 0 < x then ratAtan (y / x)
  else if x < 0 then (if 0 ≤ y then ratAtan (y / x) + ratPi else ratAtan (y / x) - ratPi)
  else if 0 < y then ratPi / 2
  else if y < 0 then -(ratPi / 2)
  else 0

/-- Decimal digits of a natural number. -/
def natDigits (n : Nat) : List Char := Nat.toDigits 10 n

/-- Removes the zeros that end a list of digits. -/
def stripZeros (ds : List Char) : List Char := (ds.reverse.dropWhile (fun c => c == '0')).reverse

/-- The least `k ≥ start` with `1 ≤ a * 10^k`, searched over `fuel` steps. -/
def shiftToUnit (a : ℚ) : Nat → Nat → Nat
  | 0, k => k
  | fuel + 1, k => if 1 ≤ a * 10 ^ k then k else shiftToUnit a fuel (k + 1)

/-- The decimal exponent `X` of a positive rational: `10^X ≤ a < 10^(X+1)`. -/
def decExponent (a : ℚ) : Int :=
  if 1 ≤ a then ((natDigits a.floor.toNat).length : Int) - 1
  else -(shiftToUnit a (natDigits a.den).length 1 : Int)

/-- Rounding of a non-negative rational to the nearest natural number, ties
to even. -/
def roundHalfEven (r : ℚ) : Nat :=
  let f := r.floor.toNat
  let frac := r - f
  if 1 / 2 < frac then f + 1
  else if frac = 1 / 2 then (if f % 2 = 0 then f else f + 1)
  else f

/-- The six significant digits of a positive rational and its decimal
exponent after rounding. -/
def sixDigits (a : ℚ) : Nat × Int :=
  let X := decExponent a
  let m := roundHalfEven (if 5 ≤ X then a / 10 ^ (X - 5).toNat else a * 10 ^ (5 - X).toNat)
  if m = 1000000 then (100000, X + 1) else (m, X)

/-- The exponent suffix of the scientific form: sign and at least two
digits. -/
def fmtExponent (X : Int) : List Char :=
  let ds := natDigits X.natAbs
  (if X < 0 then '-' else '+') :: (if ds.length < 2 then '0' :: ds else ds)

/-- The `%g` form of a positive rational at precision 6. -/
def fmtPos (a : ℚ) : List Char :=
  let mX := sixDigits a
  let ds := natDigits mX.1
  let X := mX.2
  if X < -4 ∨ 6 ≤ X then
    let frac := stripZeros (ds.drop 1)
    ds.take 1 ++ (if frac.isEmpty then [] else '.' :: frac) ++ 'e' :: fmtExponent X
  else if 0 ≤ X then
    let frac := stripZeros (ds.drop (X.toNat + 1))
    ds.take (X.toNat + 1) ++ (if frac.isEmpty then [] else '.' :: frac)
  else
    '0' :: '.' :: (List.replicate ((-X).toNat - 1) '0' ++ stripZeros ds)

/-- The text `os << v` writes at the default precision 6. -/
def ratFmt (q : ℚ) : List Char :=
  if q = 0 then ['0']
  else if q < 0 then '-' :: fmtPos (-q)
  else fmtPos q

/-- Value of a list of decimal digits, most significant first. -/
def digitsValue (ds : List Char) : Nat :=
  ds.foldl (fun acc c => 10 * acc + (c.toNat - 48)) 0

/-- An optional sign: its value and the text after it. -/
def scanSign : List Char → Bool × List Char
  | '-' :: t => (true, t)
  | '+' :: t => (false, t)
  | t => (false, t)

/-- The exponent part after the mantissa: no exponent, a whole exponent, or
`none` for an exponent mark followed by no digit. -/
def scanExponent (t : List Char) : Option (Int × List Char) :=
  match t with
  | c :: t1 =>
      if c == 'e' || c == 'E' then
        let sg := scanSign t1
        let es := sg.2.span Char.isDigit
        if es.1.isEmpty then none
        else some (if sg.1 then -(digitsValue es.1 : Int) else (digitsValue es.1 : Int), es.2)
      else some (0, t)
  | [] => some (0, t)

/-- The number parser: sign, digits, fraction, exponent. -/
def ratScan (s : List Char) : Option (ℚ × List Char) :=
  let sg := scanSign s
  let ip := sg.2.span Char.isDigit
  let fp : List Char × List Char :=
    match ip.2 with
    | '.' :: t => t.span Char.isDigit
    | t => ([], t)
  if ip.1.isEmpty && fp.1.isEmpty then none
  else
    match scanExponent fp.2 with
    | none => none
    | some (e, rest) =>
        let m : ℚ := digitsValue (ip.1 ++ fp.1)
        let v : ℚ := m * 10 ^ (e - fp.1.length)
        some (if sg.1 then -v else v, rest)

/-- Exact rational arithmetic as a platform. -/
def ratOps : DoubleOps ℚ where
  ofRat := fun q => q
  add := fun a b => a + b
  sub := fun a b => a - b
  mul := fun a b => a * b
  div := fun a b => a / b
  pow := ratPow
  sqrt := ratSqrt
  cos := ratCos
  sin := ratSin
  atan2 := ratAtan2
  ge := fun a b => decide (a ≥ b)
  lt := fun a b => decide (a < b)
  epsilon := 1 / 2 ^ 52
  fltMax := (2 ^ 24 - 1) * 2 ^ 104
  fltMin := 1 / 2 ^ 126
  pi := ratPi
  fmt := ratFmt
  scan := ratScan

/-! ## Shared lemmas -/

/-- The loop of `resample` appends at most one point for each point it
visits. -/
theorem resampleLoop_length_le (ops : DoubleOps F) (I : F) (rest : List (Point2D F)) :
    ∀ (prev : Point2D F) (D : F) (out : List (Point2D F)),
      (resampleLoop ops I prev rest D out).length ≤ out.length + rest.length := by
  induction rest with
  | nil => intro prev D out; simp [resampleLoop]
  | cons cur rest ih =>
      intro prev D out
      simp only [resampleLoop]
      split
      · refine le_trans (ih _ _ _) ?_
        simp only [List.length_append, List.length_cons, List.length_nil]
        omega
      · refine le_trans (ih _ _ _) ?_
        simp only [List.length_cons]
        omega

/-- The value `path.size()-1` of a non-empty vector does not exceed the last
index. -/
theorem sizeMinusOne_lt (size : Nat) (h : 0 < size) : sizeMinusOne size < size := by
  unfold sizeMinusOne
  have h1 : size + 2 ^ 64 - 1 = (size - 1) + 2 ^ 64 := by omega
  rw [h1, Nat.add_mod_right]
  exact lt_of_le_of_lt (Nat.mod_le _ _) (by omega)

/-- The shared loop finishes when every index it visits is inside the
vector. -/
theorem readLoop_isSome (body : Point2D F → Point2D F) (path : List (Point2D F)) :
    ∀ (count i : Nat) (q : Point2D F), i + count ≤ path.length →
      ∃ q1, readLoop body path count i q = some q1 := by
  intro count
  induction count with
  | zero => intro i q _; exact ⟨q, rfl⟩
  | succ count ih =>
      intro i q h
      have hi : i < path.length := by omega
      simp only [readLoop, List.get?_eq_getElem?, List.getElem?_eq_getElem hi]
      exact ih (i + 1) _ (by omega)

/-- On a non-empty path `rotateBy` returns with the path as it was. -/
theorem rotateBy_eq_self (ops : DoubleOps F) (path : List (Point2D F)) (C : Point2D F)
    (theta : F) (h : path ≠ []) : rotateBy ops path C theta = some path := by
  have hlen : 0 < path.length := List.length_pos.mpr h
  obtain ⟨q1, hq⟩ := readLoop_isSome (rotateByBody ops C theta) path
    (sizeMinusOne path.length) 0 ⟨ops.ofRat 0, ops.ofRat 0⟩
    (by have := sizeMinusOne_lt path.length hlen; omega)
  simp [rotateBy, hq]

/-- On a non-empty path `translateToOrigin` returns with the path as it
was. -/
theorem translateToOrigin_eq_self (ops : DoubleOps F) (path : List (Point2D F))
    (h : path ≠ []) : translateToOrigin ops path = some path := by
  have hlen : 0 < path.length := List.length_pos.mpr h
  obtain ⟨q1, hq⟩ := readLoop_isSome (translateToOriginBody ops (centroid ops path)) path
    (sizeMinusOne path.length) 0 ⟨ops.ofRat 0, ops.ofRat 0⟩
    (by have := sizeMinusOne_lt path.length hlen; omega)
  simp [translateToOrigin, hq]

/-- On a non-empty path `scaleToSquare` returns with the path as it was. -/
theorem scaleToSquare_eq_self (ops : DoubleOps F) (path : List (Point2D F)) (nSize : F)
    (h : path ≠ []) : scaleToSquare ops path nSize = some path := by
  have hlen : 0 < path.length := List.length_pos.mpr h
  obtain ⟨q1, hq⟩ := readLoop_isSome (scaleToSquareBody ops (boundingBox ops path) nSize) path
    (sizeMinusOne path.length) 0 ⟨ops.ofRat 0, ops.ofRat 0⟩
    (by have := sizeMinusOne_lt path.length hlen; omega)
  simp [scaleToSquare, hq]

/-- On a non-empty path `rotateToZero` returns with the path as it was. -/
theorem rotateToZero_eq_self (ops : DoubleOps F) (path : List (Point2D F))
    (h : path ≠ []) : rotateToZero ops path = some path := by
  cases path with
  | nil => exact absurd rfl h
  | cons p0 rest => simp [rotateToZero, rotateBy_eq_self]

/-- The loop of `operator<<` appends the text of the points. -/
theorem writePoints_eq (ops : DoubleOps F) (points : List (Point2D F)) :
    ∀ os : List Char, writePoints ops points os = os ++ pointsText ops points := by
  induction points with
  | nil => intro os; simp [writePoints, pointsText]
  | cons p rest ih => intro os; simp [writePoints, pointsText, ih]

/-- The text of a sequence of points has at least one character per point. -/
theorem length_le_pointsText (ops : DoubleOps F) (points : List (Point2D F)) :
    points.length ≤ (pointsText ops points).length := by
  induction points with
  | nil => simp
  | cons p rest ih => simp [pointsText]; omega

/-- Taking while `p` holds stops at the first character that fails `p`. -/
theorem takeWhile_append_stop (p : Char → Bool) (l r : List Char) (a : Char)
    (hl : ∀ c ∈ l, p c = true) (ha : p a = false) :
    (l ++ a :: r).takeWhile p = l := by
  induction l with
  | nil => simp [List.takeWhile, ha]
  | cons c l ih =>
      have hc : p c = true := hl c (by simp)
      simp [List.takeWhile, hc, ih (fun x hx => hl x (by simp [hx]))]

/-- Dropping while `p` holds stops at the first character that fails `p`. -/
theorem dropWhile_append_stop (p : Char → Bool) (l r : List Char) (a : Char)
    (hl : ∀ c ∈ l, p c = true) (ha : p a = false) :
    (l ++ a :: r).dropWhile p = a :: r := by
  induction l with
  | nil => simp [List.dropWhile, ha]
  | cons c l ih =>
      have hc : p c = true := hl c (by simp)
      simp [List.dropWhile, hc, ih (fun x hx => hl x (by simp [hx]))]

/-- Dropping while `p` holds removes a front part that satisfies `p`. -/
theorem dropWhile_append_skip (p : Char → Bool) (l r : List Char)
    (hl : ∀ c ∈ l, p c = true) : (l ++ r).dropWhile p = r.dropWhile p := by
  induction l with
  | nil => simp
  | cons c l ih =>
      have hc : p c = true := hl c (by simp)
      simp [List.dropWhile, hc, ih (fun x hx => hl x (by simp [hx]))]

/-- Dropping while `p` holds leaves a text that has a character failing `p`
non-empty. -/
theorem dropWhile_append_ne_nil (p : Char → Bool) (l r : List Char) (a : Char)
    (ha : p a = false) : (l ++ a :: r).dropWhile p ≠ [] := by
  induction l with
  | nil => simp [List.dropWhile, ha]
  | cons c l ih =>
      cases hc : p c
      · simp [List.dropWhile, hc]
      · simpa [List.dropWhile, hc] using ih

/-- The sentry keeps a good stream good when a character other than
whitespace is left. -/
theorem sentrySkipws_of_ne_nil (text : List Char) (h : text.dropWhile isSpace ≠ []) :
    sentrySkipws (IStream.ofChars text) = IStream.ofChars (text.dropWhile isSpace) := by
  unfold sentrySkipws
  simp only [IStream.ofChars, IStream.good, Bool.not_false, Bool.and_self, if_true]
  cases hd : text.dropWhile isSpace with
  | nil => exact absurd hd h
  | cons c rest => rfl

/-- The sentry fails at the end of the text. -/
theorem sentrySkipws_of_spaces (ws : List Char) (h : ∀ c ∈ ws, isSpace c = true) :
    sentrySkipws (IStream.ofChars ws) = { buf := [], eofbit := true, failbit := true } := by
  have hd : ws.dropWhile isSpace = [] := by
    simpa using dropWhile_append_skip isSpace ws [] h
  unfold sentrySkipws
  simp only [IStream.ofChars, IStream.good, Bool.not_false, Bool.and_self, if_true, hd]

/-- Reading a value that survives the text form, in front of a `;`. -/
theorem readDouble_fmt (ops : DoubleOps F) (v : F) (ws rest : List Char)
    (hws : ∀ c ∈ ws, isSpace c = true) (hv : RoundTrips ops v) :
    readDouble ops (IStream.ofChars (ws ++ (ops.fmt v ++ ';' :: rest)))
      = (IStream.ofChars (';' :: rest), some v) := by
  have hskip : (ws ++ (ops.fmt v ++ ';' :: rest)).dropWhile isSpace
      = (ops.fmt v ++ ';' :: rest).dropWhile isSpace :=
    dropWhile_append_skip isSpace ws _ hws
  have hne : (ws ++ (ops.fmt v ++ ';' :: rest)).dropWhile isSpace ≠ [] := by
    rw [hskip]
    exact dropWhile_append_ne_nil isSpace _ _ _ (by decide)
  unfold readDouble
  simp only [sentrySkipws_of_ne_nil _ hne, hskip]
  simp [IStream.ofChars, hv rest]

/-- At the end of the text the loop of `operator>>` stops and keeps the
points read so far. -/
theorem readPoints_at_end (ops : DoubleOps F) (fuel : Nat) (ws : List Char)
    (acc : List (Point2D F)) (hws : ∀ c ∈ ws, isSpace c = true) (hfuel : 2 ≤ fuel) :
    readPoints ops fuel (IStream.ofChars ws) acc
      = some ({ buf := [], eofbit := true, failbit := true }, acc) := by
  obtain ⟨f, rfl⟩ : ∃ f, fuel = f + 2 := ⟨fuel - 2, by omega⟩
  have h1 : readDouble ops (IStream.ofChars ws)
      = ({ buf := [], eofbit := true, failbit := true }, none) := by
    unfold readDouble
    rw [sentrySkipws_of_spaces ws hws]
    rfl
  have h2 : readDouble ops { buf := [], eofbit := true, failbit := true }
      = ({ buf := [], eofbit := true, failbit := true }, none) := rfl
  have h3 : ignoreOne { buf := [], eofbit := true, failbit := true }
      = { buf := [], eofbit := true, failbit := true } := rfl
  have hfail : (IStream.ofChars ws).failbit = false := rfl
  rw [readPoints]
  simp only [hfail, h1, h2, h3]
  rfl

/-- The loop of `operator>>` reads back the text of a sequence of points
whose coordinates survive the text form. -/
theorem readPoints_pointsText (ops : DoubleOps F) (points : List (Point2D F)) :
    ∀ (fuel : Nat) (ws : List Char) (acc : List (Point2D F)),
      (∀ c ∈ ws, isSpace c = true) →
      (∀ p ∈ points, RoundTrips ops p.x ∧ RoundTrips ops p.y) →
      points.length + 2 ≤ fuel →
      readPoints ops fuel (IStream.ofChars (ws ++ pointsText ops points)) acc
        = some ({ buf := [], eofbit := true, failbit := true }, acc ++ points) := by
  induction points with
  | nil =>
      intro fuel ws acc hws _ hfuel
      simpa [pointsText] using readPoints_at_end ops fuel ws acc hws (by simpa using hfuel)
  | cons p rest ih =>
      intro fuel ws acc hws hp hfuel
      obtain ⟨f, rfl⟩ : ∃ f, fuel = f + 1 := ⟨fuel - 1, by simp at hfuel; omega⟩
      have hx := (hp p (by simp)).1
      have hy := (hp p (by simp)).2
      have h1 := readDouble_fmt ops p.x ws (ops.fmt p.y ++ ';' :: pointsText ops rest) hws hx
      have h2 := readDouble_fmt ops p.y [] (pointsText ops rest) (by simp) hy
      have h3 := ih f [] (acc ++ [p]) (by simp) (fun q hq => hp q (by simp [hq]))
        (by simp at hfuel; omega)
      simp only [List.nil_append] at h2 h3
      have hfail : (IStream.ofChars (ws ++ pointsText ops (p :: rest))).failbit = false := rfl
      rw [readPoints]
      simp only [hfail, pointsText, h1]
      have hi1 : ignoreOne (IStream.ofChars (';' :: (ops.fmt p.y ++ ';' :: pointsText ops rest)))
          = IStream.ofChars (ops.fmt p.y ++ ';' :: pointsText ops rest) := rfl
      have hi2 : ignoreOne (IStream.ofChars (';' :: pointsText ops rest))
          = IStream.ofChars (pointsText ops rest) := rfl
      simp only [hi1, h2, hi2]
      simpa [IStream.ofChars] using h3

/-- Reading a name without whitespace that a blank follows. -/
theorem readString_name (nm text : List Char) (str : String) (hne : nm ≠ [])
    (hnm : ∀ c ∈ nm, isSpace c = false) :
    readString (IStream.ofChars (nm ++ ' ' :: text)) str
      = (IStream.ofChars (' ' :: text), String.mk nm) := by
  have hskip : (nm ++ ' ' :: text).dropWhile isSpace = nm ++ ' ' :: text := by
    cases nm with
    | nil => exact absurd rfl hne
    | cons c nm1 => simp [List.dropWhile, hnm c (by simp)]
  have hnil : nm ++ ' ' :: text ≠ [] := by simp
  have htake : (nm ++ ' ' :: text).takeWhile (fun c => !isSpace c) = nm :=
    takeWhile_append_stop _ nm text ' ' (fun c hc => by simp [hnm c hc]) (by decide)
  have hdrop : (nm ++ ' ' :: text).dropWhile (fun c => !isSpace c) = ' ' :: text :=
    dropWhile_append_stop _ nm text ' ' (fun c hc => by simp [hnm c hc]) (by decide)
  have hemp : nm.isEmpty = false := by
    cases nm with
    | nil => exact absurd rfl hne
    | cons c nm1 => rfl
  unfold readString
  rw [sentrySkipws_of_ne_nil _ (by rw [hskip]; exact hnil), hskip]
  simp [IStream.ofChars, htake, hdrop, hemp]

/-- The text `operator<<` writes on an empty stream for a gesture whose name
has no NUL character. -/
theorem writeGesture_eq (ops : DoubleOps F) (g : Gesture F)
    (hname : ∀ c ∈ g.name.data, c ≠ '\x00') :
    writeGesture ops [] g = g.name.data ++ ' ' :: pointsText ops g.current_points := by
  have hc : cStr g.name = g.name.data := by
    unfold cStr
    rw [List.takeWhile_eq_self_iff]
    intro c hc
    simpa using hname c hc
  simp [writeGesture, writePoints_eq, hc]

/-- In exact arithmetic `1` is written `1` and read back. -/
theorem roundTrips_one : RoundTrips ratOps 1 := by
  intro rest
  have h : ratOps.fmt 1 = ['1'] := by decide!
  rw [h]
  simp [ratOps, ratScan, scanSign, scanExponent, List.span, List.span.loop, List.dropWhile,
    isSpace, digitsValue]

/-- In exact arithmetic `2` is written `2` and read back. -/
theorem roundTrips_two : RoundTrips ratOps 2 := by
  intro rest
  have h : ratOps.fmt 2 = ['2'] := by decide!
  rw [h]
  simp [ratOps, ratScan, scanSign, scanExponent, List.span, List.span.loop, List.dropWhile,
    isSpace, digitsValue]

/-- In exact arithmetic `1/2` is written `0.5` and read back. -/
theorem roundTrips_half : RoundTrips ratOps (1 / 2) := by
  intro rest
  have h : ratOps.fmt (1 / 2) = ['0', '.', '5'] := by decide!
  rw [h]
  simp [ratOps, ratScan, scanSign, scanExponent, List.span, List.span.loop, List.dropWhile,
    isSpace, digitsValue]
  norm_num

/-- In exact arithmetic `-3` is written `-3` and read back. -/
theorem roundTrips_minus_three : RoundTrips ratOps (-3) := by
  intro rest
  have h : ratOps.fmt (-3) = ['-', '3'] := by decide!
  rw [h]
  simp [ratOps, ratScan, scanSign, scanExponent, List.span, List.span.loop, List.dropWhile,
    isSpace, digitsValue]

/-- The loop of `pathLength` is the index sum over the segments. -/
theorem pathLengthLoop_eq_foldl (ops : DoubleOps F) (rest : List (Point2D F)) :
    ∀ (prev : Point2D F) (dist : F),
      pathLengthLoop ops prev rest dist
        = (List.range rest.length).foldl
            (fun acc k => ops.add acc
              (euclideanSpec ops (pointAt ops (prev :: rest) k) (pointAt ops (prev :: rest) (k + 1))))
            dist := by
  induction rest with
  | nil => intro prev dist; simp [pathLengthLoop]
  | cons cur rest ih =>
      intro prev dist
      rw [pathLengthLoop, ih, List.length_cons, List.range_succ_eq_map, List.foldl_cons,
        List.foldl_map]
      rfl

/-- The loop of `centroid` adds the coordinates in order. -/
theorem centroidLoop_eq_foldl (ops : DoubleOps F) (path : List (Point2D F)) :
    ∀ x y : F,
      centroidLoop ops path x y
        = ((path.map (fun p => p.x)).foldl ops.add x, (path.map (fun p => p.y)).foldl ops.add y) := by
  induction path with
  | nil => intro x y; rfl
  | cons p rest ih => intro x y; simp [centroidLoop, ih]

/-- The loop of `resample` only appends to the points it has emitted. -/
theorem resampleLoop_prefix (ops : DoubleOps F) (I : F) (rest : List (Point2D F)) :
    ∀ (prev : Point2D F) (D : F) (out : List (Point2D F)),
      ∃ t, resampleLoop ops I prev rest D out = out ++ t := by
  induction rest with
  | nil => intro prev D out; exact ⟨[], by simp [resampleLoop]⟩
  | cons cur rest ih =>
      intro prev D out
      simp only [resampleLoop]
      split
      · obtain ⟨t, ht⟩ := ih cur (ops.ofRat 0) (out ++ [⟨_, _⟩])
        rw [ht, List.append_assoc]
        exact ⟨_, rfl⟩
      · exact ih cur _ out


/-! ## Claims -/

/-- C1 (code at the failing input).  On every platform, `resample` asked for
3 points on a path of two points returns fewer than 3 points: the loop
appends at most one point per segment. -/
theorem resample_two_points_ask_three (ops : DoubleOps F) (a b : Point2D F) :
    ∃ r, resample ops [a, b] 3 = some r ∧ r.length < 3 := by
  refine ⟨_, rfl, ?_⟩
  have := resampleLoop_length_le ops
    (ops.div (pathLength ops [a, b]) (ops.ofRat ((3 : Int) - 1 : Int))) [b] a (ops.ofRat 0) [a]
  simp only [List.length_cons, List.length_nil] at this
  omega

/-- C2 (code at the failing input).  In exact arithmetic, `resample` of the
two-point path `(0,0), (1,0)` with `n = 2` returns `(0,0), (-1,0)`: the
second point is extrapolated backwards, away from `(1,0)`. -/
theorem resample_two_points_ask_two :
    resample ratOps [⟨0, 0⟩, ⟨1, 0⟩] 2 = some [⟨0, 0⟩, ⟨-1, 0⟩] := by
  decide!

/-- C3 (code at the failing input).  In exact arithmetic, after
`normaliseGesture(2, 1)` a gesture holding `(0,0), (1,0), (2,0)` still holds
these three points, while the pipeline of the specification evaluates to the
two points `(0,0), (0,0)`. -/
theorem normaliseGesture_keeps_three_points :
    (normaliseGesture
        ((((Gesture.new ratOps "line").addPoint ⟨0, 0⟩).addPoint ⟨1, 0⟩).addPoint ⟨2, 0⟩)
        2 1).2.current_points
      = [⟨0, 0⟩, ⟨1, 0⟩, ⟨2, 0⟩]
    ∧ normalisePipeline ratOps [⟨0, 0⟩, ⟨1, 0⟩, ⟨2, 0⟩] 2 1 = some [⟨0, 0⟩, ⟨0, 0⟩] := by
  decide!

/-- C4 (counterexample).  On a fresh gesture, which holds no point,
`normaliseGesture(64, 250)` completes normally: it signals neither
`InsufficientPoints` nor any other error. -/
theorem normaliseGesture_empty_completes :
    (normaliseGesture (Gesture.fresh ratOps) 64 250).1 = Except.ok ()
    ∧ (normaliseGesture (Gesture.fresh ratOps) 64 250).1
        ≠ Except.error GestureError.InsufficientPoints :=
  ⟨rfl, by simp [normaliseGesture]⟩

/-- C4 (amended).  On every gesture holding fewer than 2 points and for all
arguments, `normaliseGesture` completes normally: no error is signalled. -/
theorem normaliseGesture_few_points_completes (g : Gesture F) (numResampled squareSize : Int)
    (_h : g.current_points.length < 2) :
    (normaliseGesture g numResampled squareSize).1 = Except.ok () :=
  rfl

/-- C4 (witness): a gesture holding the single point `(3, 4)`. -/
theorem normaliseGesture_few_points_completes_witness :
    ((Gesture.fresh ratOps).addPoint ⟨3, 4⟩).current_points.length < 2
    ∧ (normaliseGesture ((Gesture.fresh ratOps).addPoint ⟨3, 4⟩) 64 250).1 = Except.ok () :=
  ⟨by decide, normaliseGesture_few_points_completes _ 64 250 (by decide)⟩

/-- C5.  For every gesture and all arguments, the gesture after
`normaliseGesture` has the name and the point sequence it had before the
call.  This holds however the call ends, so in particular whenever
normalisation does not fully succeed. -/
theorem normaliseGesture_no_partial_mutation (g : Gesture F)
    (numResampled squareSize : Int) :
    (normaliseGesture g numResampled squareSize).2.name = g.name
    ∧ (normaliseGesture g numResampled squareSize).2.current_points = g.current_points :=
  ⟨rfl, rfl⟩

/-- C6 (counterexample).  In exact arithmetic, the gesture named `a b` with
the single point `(1,2)` is written as `a b 1;2;`, and reading that text into
a fresh gesture yields the name `a` and no point.  The round trip also fails
for an empty name (the text of the points is read as the name), for a name
with a NUL character (the name is written up to the NUL), and for the
coordinate `1234567` (written `1.23457e+06`, read back as `1234570`). -/
theorem readGesture_name_with_blank :
    writeGesture ratOps [] ((Gesture.new ratOps "a b").addPoint ⟨1, 2⟩) = "a b 1;2;".data
    ∧ (readGesture ratOps
          (IStream.ofChars (writeGesture ratOps [] ((Gesture.new ratOps "a b").addPoint ⟨1, 2⟩)))
          (Gesture.fresh ratOps)).map (fun r => (r.2.name, r.2.current_points))
        = some ("a", [])
    ∧ (readGesture ratOps
          (IStream.ofChars (writeGesture ratOps [] ((Gesture.new ratOps "").addPoint ⟨1, 2⟩)))
          (Gesture.fresh ratOps)).map (fun r => (r.2.name, r.2.current_points))
        = some ("1;2;", [])
    ∧ (readGesture ratOps
          (IStream.ofChars
            (writeGesture ratOps [] ((Gesture.new ratOps "a\x00b").addPoint ⟨1, 2⟩)))
          (Gesture.fresh ratOps)).map (fun r => (r.2.name, r.2.current_points))
        = some ("a", [⟨1, 2⟩])
    ∧ (readGesture ratOps
          (IStream.ofChars
            (writeGesture ratOps [] ((Gesture.new ratOps "circle").addPoint ⟨1234567, 2⟩)))
          (Gesture.fresh ratOps)).map (fun r => (r.2.name, r.2.current_points))
        = some ("circle", [⟨1234570, 2⟩]) := by
  decide!

/-- C6 (amended).  On every platform, for every gesture with at least 1
point whose name is not empty and has neither whitespace nor a NUL character,
and whose coordinates all survive the text form, writing the gesture with
`operator<<` and reading the text with `operator>>` into a fresh gesture
returns, and yields the same name and the same point sequence. -/
theorem readGesture_writeGesture (ops : DoubleOps F) (g : Gesture F)
    (_hlen : 1 ≤ g.current_points.length)
    (hne : g.name.data ≠ [])
    (hname : ∀ c ∈ g.name.data, isSpace c = false ∧ c ≠ '\x00')
    (hpts : ∀ p ∈ g.current_points, RoundTrips ops p.x ∧ RoundTrips ops p.y) :
    ∃ r, readGesture ops (IStream.ofChars (writeGesture ops [] g)) (Gesture.fresh ops) = some r
      ∧ r.2.name = g.name ∧ r.2.current_points = g.current_points := by
  have hw := writeGesture_eq ops g (fun c hc => (hname c hc).2)
  have hs := readString_name g.name.data (pointsText ops g.current_points)
    (Gesture.fresh ops).name hne (fun c hc => (hname c hc).1)
  have hp := readPoints_pointsText ops g.current_points
    ((' ' :: pointsText ops g.current_points).length + 2) [' '] [] (by decide) hpts
    (by have := length_le_pointsText ops g.current_points
        simp only [List.length_cons]; omega)
  simp only [List.singleton_append, List.nil_append] at hp
  unfold readGesture
  rw [hw, hs]
  have hfresh : (Gesture.fresh ops).current_points = [] := rfl
  simp only [hfresh]
  simp only [IStream.ofChars] at hp ⊢
  rw [hp]
  exact ⟨_, rfl, rfl, rfl⟩

/-- C6 (witness): in exact arithmetic, the gesture named `circle` with the
points `(1,2)` and `(1/2,-3)`. -/
theorem readGesture_writeGesture_witness :
    (1 ≤ (((Gesture.new ratOps "circle").addPoint ⟨1, 2⟩).addPoint
        ⟨1 / 2, -3⟩).current_points.length)
    ∧ ∃ r, readGesture ratOps
          (IStream.ofChars (writeGesture ratOps []
            (((Gesture.new ratOps "circle").addPoint ⟨1, 2⟩).addPoint ⟨1 / 2, -3⟩)))
          (Gesture.fresh ratOps) = some r
        ∧ r.2.name = "circle" ∧ r.2.current_points = [⟨1, 2⟩, ⟨1 / 2, -3⟩] :=
  ⟨by decide,
    readGesture_writeGesture ratOps
      (((Gesture.new ratOps "circle").addPoint ⟨1, 2⟩).addPoint ⟨1 / 2, -3⟩)
      (by decide) (by decide) (by decide)
      (by
        intro p hp
        simp only [Gesture.addPoint, Gesture.new, List.nil_append, List.cons_append,
          List.mem_cons, List.mem_singleton, List.not_mem_nil, or_false] at hp
        rcases hp with rfl | rfl
        · exact ⟨roundTrips_one, roundTrips_two⟩
        · exact ⟨roundTrips_half, roundTrips_minus_three⟩)⟩

/-- C7 (code at the failing input).  In exact arithmetic, the box
`boundingBox` returns for the path `(0,0), (3,4)` has negative width and
height, and its corner `x` lies to the right of both points. -/
theorem boundingBox_negative_extent :
    (boundingBox ratOps [⟨0, 0⟩, ⟨3, 4⟩]).w < 0
    ∧ (boundingBox ratOps [⟨0, 0⟩, ⟨3, 4⟩]).h < 0
    ∧ 3 < (boundingBox ratOps [⟨0, 0⟩, ⟨3, 4⟩]).x := by
  decide!

/-- C8 (code at the failing input).  In exact arithmetic, the path
`(1,0), (3,0)` has centroid `(2,0)`, and `translateToOrigin` returns with the
path still `(1,0), (3,0)`, not `(-1,0), (1,0)`. -/
theorem translateToOrigin_path_unchanged :
    centroid ratOps [⟨1, 0⟩, ⟨3, 0⟩] = ⟨2, 0⟩
    ∧ translateToOrigin ratOps [⟨1, 0⟩, ⟨3, 0⟩] = some [⟨1, 0⟩, ⟨3, 0⟩] := by
  decide!

/-- C9 (code at the failing input).  In exact arithmetic,
`scaleToSquare(path, 4)` returns with the path `(0,0), (1,2)` as it was,
not `(0,0), (4,4)`. -/
theorem scaleToSquare_path_unchanged :
    scaleToSquare ratOps [⟨0, 0⟩, ⟨1, 2⟩] 4 = some [⟨0, 0⟩, ⟨1, 2⟩] := by
  decide!

/-- C10 (code at the failing input).  On every platform, `rotateBy` by 90
degrees about `(0,0)` returns with the path `(1,0), (0,1)` as it was. -/
theorem rotateBy_path_unchanged (ops : DoubleOps F) :
    rotateBy ops [⟨ops.ofRat 1, ops.ofRat 0⟩, ⟨ops.ofRat 0, ops.ofRat 1⟩]
        ⟨ops.ofRat 0, ops.ofRat 0⟩ (ops.ofRat 90)
      = some [⟨ops.ofRat 1, ops.ofRat 0⟩, ⟨ops.ofRat 0, ops.ofRat 1⟩] :=
  rotateBy_eq_self ops _ _ _ (by simp)

/-- C11 (code at the failing input).  In exact arithmetic, `pathDistance` of
the path `(0,0)` against a gesture holding the point `(3,4)` returns `0`,
while the distance between the two points is `5`. -/
theorem pathDistance_returns_zero :
    pathDistance ratOps [⟨0, 0⟩] ((Gesture.new ratOps "line").addPoint ⟨3, 4⟩) = 0
    ∧ Point2D.distance ratOps ⟨0, 0⟩ ⟨3, 4⟩ = 5 := by
  decide!

/-- C12.  On every platform and for every gesture, normalized or not,
`distanceAtBestAngle` of the gesture against itself returns `0.0`. -/
theorem distanceAtBestAngle_self (ops : DoubleOps F) (g : Gesture F) :
    distanceAtBestAngle ops g g = ops.ofRat 0 :=
  rfl

/-- C13.  For every gesture, after `clear()` the point sequence is empty and
the name is `"dummy"`. -/
theorem clear_resets (g : Gesture F) :
    g.clear.getPointVector = [] ∧ g.clear.getName = "dummy" :=
  ⟨rfl, rfl⟩

/-- C14.  For every gesture and every point `p`, after `addPoint(p)`
`getPointVector()` returns the former points followed by `p`: one point more
than before, the former points first, in their order and with their values;
and `getName()` returns the former name. -/
theorem addPoint_appends (g : Gesture F) (p : Point2D F) :
    (g.addPoint p).getPointVector = g.getPointVector ++ [p]
    ∧ (g.addPoint p).getPointVector.length = g.getPointVector.length + 1
    ∧ (g.addPoint p).getPointVector.take g.getPointVector.length = g.getPointVector
    ∧ (g.addPoint p).getName = g.getName := by
  refine ⟨rfl, ?_, ?_, rfl⟩
  · simp [Gesture.addPoint, Gesture.getPointVector]
  · simp [Gesture.addPoint, Gesture.getPointVector]

/-- C15.  On every platform and for every path, `pathLength` is the sum, over
`i` from `1` to `len - 1`, of the Euclidean distance between `path[i-1]` and
`path[i]`; it is `0` for the empty path and for a path of one point. -/
theorem pathLength_eq_spec (ops : DoubleOps F) (path : List (Point2D F)) :
    pathLength ops path = pathLengthSpec ops path
    ∧ pathLength ops [] = ops.ofRat 0
    ∧ ∀ p : Point2D F, pathLength ops [p] = ops.ofRat 0 := by
  refine ⟨?_, rfl, fun _ => rfl⟩
  cases path with
  | nil => rfl
  | cons p0 rest =>
      simp only [pathLength, pathLengthSpec, List.length_cons, Nat.add_sub_cancel]
      exact pathLengthLoop_eq_foldl ops rest p0 (ops.ofRat 0)

/-- C16.  On every platform and for every non-empty path, `centroid` is the
point whose `x` is the arithmetic mean of the `x` coordinates and whose `y`
is the arithmetic mean of the `y` coordinates. -/
theorem centroid_eq_mean (ops : DoubleOps F) (path : List (Point2D F)) (_h : path ≠ []) :
    centroid ops path
      = ⟨meanSpec ops (path.map (fun p => p.x)), meanSpec ops (path.map (fun p => p.y))⟩ := by
  simp [centroid, meanSpec, centroidLoop_eq_foldl]

/-- C16 (witness): in exact arithmetic, the path `(1,0), (3,0), (5,6)`, with
means `3` and `2`. -/
theorem centroid_eq_mean_witness :
    ([⟨1, 0⟩, ⟨3, 0⟩, ⟨5, 6⟩] : List (Point2D ℚ)) ≠ []
    ∧ centroid ratOps [⟨1, 0⟩, ⟨3, 0⟩, ⟨5, 6⟩]
        = ⟨meanSpec ratOps [1, 3, 5], meanSpec ratOps [0, 0, 6]⟩
    ∧ meanSpec ratOps [1, 3, 5] = 3 ∧ meanSpec ratOps [0, 0, 6] = 2 :=
  ⟨by decide, centroid_eq_mean ratOps [⟨1, 0⟩, ⟨3, 0⟩, ⟨5, 6⟩] (by decide), by decide!,
    by decide!⟩

/-- C17 (counterexample).  In exact arithmetic, `centroid` called on the
empty path signals no error: the call completes normally with the point
whose coordinates are both the quotient of the sum `0` by the size `0`. -/
theorem centroid_empty_completes :
    centroidCall ratOps [] = Except.ok ⟨ratOps.div 0 0, ratOps.div 0 0⟩
    ∧ centroidCall ratOps [] ≠ Except.error GestureError.EmptyPath :=
  ⟨by simp [centroidCall, centroid, centroidLoop, ratOps], by simp [centroidCall]⟩

/-- C17 (amended).  On every platform, `centroid` called on the empty path
signals no error: it completes normally and returns the point whose
coordinates are both the quotient of the sum `0.0` by `(double)0`. -/
theorem centroid_empty_divides (ops : DoubleOps F) :
    centroidCall ops []
      = Except.ok ⟨ops.div (ops.ofRat 0) (ops.ofRat 0), ops.div (ops.ofRat 0) (ops.ofRat 0)⟩ := by
  simp [centroidCall, centroid, centroidLoop]

/-- C18 (counterexample).  In exact arithmetic, the distance from the point
`(1,2)` to itself is `epsilon = 2^-52`, not `0`. -/
theorem distance_to_self_is_epsilon :
    Point2D.distance ratOps ⟨1, 2⟩ ⟨1, 2⟩ = 1 / 2 ^ 52
    ∧ Point2D.distance ratOps ⟨1, 2⟩ ⟨1, 2⟩ ≠ 0 := by
  decide!

/-- C18 (amended).  On every platform and for every pair of points `p` and
`q`, with `s` the sum of the squared coordinate differences,
`Point2D::distance` returns `sqrt(s)` when `s < epsilon` is false and
`epsilon` when `s < epsilon` is true.  In particular the distance from `p` to
itself is `epsilon` whenever `p.x - p.x` and `p.y - p.y` compute to `0.0`, on
a platform where `pow(0, 2) = 0`, `0 + 0 = 0` and `0 < epsilon`; in exact
arithmetic that is every point. -/
theorem distance_eq_sqrt_or_epsilon (ops : DoubleOps F) (p q : Point2D F) :
    (ops.lt (ops.add (ops.pow (ops.sub p.x q.x) (ops.ofRat 2))
                     (ops.pow (ops.sub p.y q.y) (ops.ofRat 2))) ops.epsilon = false →
      Point2D.distance ops p q
        = ops.sqrt (ops.add (ops.pow (ops.sub p.x q.x) (ops.ofRat 2))
                            (ops.pow (ops.sub p.y q.y) (ops.ofRat 2))))
    ∧ (ops.lt (ops.add (ops.pow (ops.sub p.x q.x) (ops.ofRat 2))
                       (ops.pow (ops.sub p.y q.y) (ops.ofRat 2))) ops.epsilon = true →
      Point2D.distance ops p q = ops.epsilon)
    ∧ (ops.sub p.x p.x = ops.ofRat 0 → ops.sub p.y p.y = ops.ofRat 0 →
        ops.pow (ops.ofRat 0) (ops.ofRat 2) = ops.ofRat 0 →
        ops.add (ops.ofRat 0) (ops.ofRat 0) = ops.ofRat 0 →
        ops.lt (ops.ofRat 0) ops.epsilon = true →
      Point2D.distance ops p p = ops.epsilon)
    ∧ ∀ r : Point2D ℚ, Point2D.distance ratOps r r = ratOps.epsilon := by
  have hself : ∀ (o : DoubleOps F) (a : Point2D F),
      o.sub a.x a.x = o.ofRat 0 → o.sub a.y a.y = o.ofRat 0 →
      o.pow (o.ofRat 0) (o.ofRat 2) = o.ofRat 0 →
      o.add (o.ofRat 0) (o.ofRat 0) = o.ofRat 0 →
      o.lt (o.ofRat 0) o.epsilon = true →
      Point2D.distance o a a = o.epsilon := by
    intro o a hx hy hpow hadd hlt
    simp [Point2D.distance, hx, hy, hpow, hadd, hlt]
  refine ⟨?_, ?_, hself ops p, ?_⟩
  · intro h
    simp [Point2D.distance, h]
  · intro h
    simp [Point2D.distance, h]
  · intro r
    have hx : ratOps.sub r.x r.x = ratOps.ofRat 0 := by simp [ratOps]
    have hy : ratOps.sub r.y r.y = ratOps.ofRat 0 := by simp [ratOps]
    have hpow : ratOps.pow (ratOps.ofRat 0) (ratOps.ofRat 2) = ratOps.ofRat 0 := by decide!
    have hadd : ratOps.add (ratOps.ofRat 0) (ratOps.ofRat 0) = ratOps.ofRat 0 := by decide!
    have hlt : ratOps.lt (ratOps.ofRat 0) ratOps.epsilon = true := by decide!
    simp [Point2D.distance, hx, hy, hpow, hadd, hlt]

/-- C18 (witness): in exact arithmetic, the distance from `(0,0)` to `(3,4)`
is `sqrt(25) = 5`, and the distance from `(1,2)` to itself is `epsilon`, by
the second and by the third part. -/
theorem distance_eq_sqrt_or_epsilon_witness :
    (Point2D.distance ratOps ⟨0, 0⟩ ⟨3, 4⟩ = ratOps.sqrt 25 ∧ ratOps.sqrt 25 = 5)
    ∧ Point2D.distance ratOps ⟨1, 2⟩ ⟨1, 2⟩ = ratOps.epsilon
    ∧ ((ratOps.sub 1 1 = ratOps.ofRat 0 ∧ ratOps.sub 2 2 = ratOps.ofRat 0
          ∧ ratOps.pow (ratOps.ofRat 0) (ratOps.ofRat 2) = ratOps.ofRat 0
          ∧ ratOps.add (ratOps.ofRat 0) (ratOps.ofRat 0) = ratOps.ofRat 0
          ∧ ratOps.lt (ratOps.ofRat 0) ratOps.epsilon = true)
        ∧ Point2D.distance ratOps ⟨1, 2⟩ ⟨1, 2⟩ = ratOps.epsilon) :=
  ⟨⟨((distance_eq_sqrt_or_epsilon ratOps ⟨0, 0⟩ ⟨3, 4⟩).1 (by decide!)).trans (by decide!),
      by decide!⟩,
    (distance_eq_sqrt_or_epsilon ratOps ⟨1, 2⟩ ⟨1, 2⟩).2.1 (by decide!),
    ⟨by decide!, by decide!, by decide!, by decide!, by decide!⟩,
    (distance_eq_sqrt_or_epsilon ratOps ⟨1, 2⟩ ⟨1, 2⟩).2.2.1 (by decide!) (by decide!)
      (by decide!) (by decide!) (by decide!)⟩

/-- C19.  On every platform, for every non-empty path and every `n`,
`resample` returns a sequence that starts with `path[0]` and has at least 1
and at most `len(path)` points. -/
theorem resample_first_and_length (ops : DoubleOps F) (path : List (Point2D F)) (n : Int)
    (h : path ≠ []) :
    ∃ r, resample ops path n = some r ∧ r.head? = path.head?
      ∧ 1 ≤ r.length ∧ r.length ≤ path.length := by
  cases path with
  | nil => exact absurd rfl h
  | cons p0 rest =>
      obtain ⟨t, ht⟩ := resampleLoop_prefix ops
        (ops.div (pathLength ops (p0 :: rest)) (ops.ofRat (n - 1 : Int))) rest p0 (ops.ofRat 0) [p0]
      have hle := resampleLoop_length_le ops
        (ops.div (pathLength ops (p0 :: rest)) (ops.ofRat (n - 1 : Int))) rest p0 (ops.ofRat 0) [p0]
      refine ⟨_, rfl, ?_, ?_, ?_⟩
      · rw [ht]; rfl
      · rw [ht]; simp
      · simpa [Nat.add_comm] using hle

/-- C19 (witness): in exact arithmetic, the path `(0,0), (3,4), (3,5)`
resampled with `n = 64` gives the three points `(0,0), (-2/35, -8/105),
(3, 82/21)`. -/
theorem resample_first_and_length_witness :
    ([⟨0, 0⟩, ⟨3, 4⟩, ⟨3, 5⟩] : List (Point2D ℚ)) ≠ []
    ∧ (∃ r, resample ratOps [⟨0, 0⟩, ⟨3, 4⟩, ⟨3, 5⟩] 64 = some r
        ∧ r.head? = some ⟨0, 0⟩ ∧ 1 ≤ r.length ∧ r.length ≤ 3)
    ∧ resample ratOps [⟨0, 0⟩, ⟨3, 4⟩, ⟨3, 5⟩] 64 = some [⟨0, 0⟩, ⟨-2 / 35, -8 / 105⟩, ⟨3, 82 / 21⟩] :=
  ⟨by decide, resample_first_and_length ratOps [⟨0, 0⟩, ⟨3, 4⟩, ⟨3, 5⟩] 64 (by decide),
    by decide!⟩

/-- C20.  On every platform, for every non-empty path and all argument
values, `rotateBy`, `translateToOrigin`, `scaleToSquare` and `rotateToZero`
each return with the path exactly as it was passed. -/
theorem transforms_leave_path (ops : DoubleOps F) (path : List (Point2D F)) (C : Point2D F)
    (theta nSize : F) (h : path ≠ []) :
    rotateBy ops path C theta = some path
    ∧ translateToOrigin ops path = some path
    ∧ scaleToSquare ops path nSize = some path
    ∧ rotateToZero ops path = some path :=
  ⟨rotateBy_eq_self ops path C theta h, translateToOrigin_eq_self ops path h,
    scaleToSquare_eq_self ops path nSize h, rotateToZero_eq_self ops path h⟩

/-- C20 (witness): in exact arithmetic, the path `(1,0), (0,1), (5,6)`,
rotated by 90 about `(2,2)` and scaled to size 250. -/
theorem transforms_leave_path_witness :
    ([⟨1, 0⟩, ⟨0, 1⟩, ⟨5, 6⟩] : List (Point2D ℚ)) ≠ []
    ∧ rotateBy ratOps [⟨1, 0⟩, ⟨0, 1⟩, ⟨5, 6⟩] ⟨2, 2⟩ 90 = some [⟨1, 0⟩, ⟨0, 1⟩, ⟨5, 6⟩]
    ∧ translateToOrigin ratOps [⟨1, 0⟩, ⟨0, 1⟩, ⟨5, 6⟩] = some [⟨1, 0⟩, ⟨0, 1⟩, ⟨5, 6⟩]
    ∧ scaleToSquare ratOps [⟨1, 0⟩, ⟨0, 1⟩, ⟨5, 6⟩] 250 = some [⟨1, 0⟩, ⟨0, 1⟩, ⟨5, 6⟩]
    ∧ rotateToZero ratOps [⟨1, 0⟩, ⟨0, 1⟩, ⟨5, 6⟩] = some [⟨1, 0⟩, ⟨0, 1⟩, ⟨5, 6⟩] :=
  ⟨by decide, transforms_leave_path ratOps [⟨1, 0⟩, ⟨0, 1⟩, ⟨5, 6⟩] ⟨2, 2⟩ 90 250 (by decide)⟩

end GestureHpp
